import Mathlib

/-!
Verification of the shipments CSV-to-PostgreSQL ETL pipeline
(`etl_script.py`) against its natural-language specification.

The pipeline is embedded shallowly:
* a pandas `DataFrame` becomes a `DataFrame` structure (column header list
  plus row-major cell lists); cell values are integers, strings or the
  missing marker `Value.na` (pandas `NaN`); numeric literals are modelled
  over `Int` (the claims under verification only distinguish parseable
  from unparseable values);
* `validate_data` / `transform_data` become pure functions into
  `Except String _` (a raised `AssertionError`/`TypeError` is the
  `.error` case carrying the message);
* the PostgreSQL side becomes explicit state: a catalog state `DBState`
  for the provisioning DDL, a `Table` of field-assignment rows for
  `warehouse.shipments`, and outcome records for the connection /
  transaction behaviour of `create_database` and `load_data`;
* Python object identity (needed for the mutation claims about
  `df.copy()` and `inplace=True`) is modelled by a small heap `PyHeap`
  of dataframe cells.
-/

namespace Etl

/-- A cell of a dataframe: an integer, a string, or the missing marker
(pandas `NaN`). -/
inductive Value where
  | int (n : Int)
  | str (s : String)
  | na
deriving DecidableEq, Repr

/-- A pandas dataframe: a list of column labels and row-major cell data.
In a well-formed frame every row has exactly `cols.length` cells. -/
structure DataFrame where
  cols : List String
  rows : List (List Value)
deriving DecidableEq, Repr

/-- Value of the first column labelled `c` in one row (pandas positional
lookup of a column label). -/
def getColRow : List String → String → List Value → Option Value
  | [], _, _ => none
  | _, _, [] => none
  | c2 :: cs, c, v :: vs => if c2 == c then some v else getColRow cs c vs

/-- `df[c]`: the series of the column labelled `c` (missing cells read as
`NaN`). -/
def DataFrame.getCol (d : DataFrame) (c : String) : List Value :=
  d.rows.map (fun r => (getColRow d.cols c r).getD Value.na)

/-- Entry `j` of column `c` (reads `NaN` out of range). -/
def colValAt (d : DataFrame) (c : String) (j : Nat) : Value :=
  (d.getCol c).getD j Value.na

/-- The 12 source column names required by `validate_data`. -/
def requiredColumns : List String :=
  ["ID", "Warehouse_block", "Mode_of_Shipment", "Customer_care_calls",
   "Customer_rating", "Cost_of_the_Product", "Prior_purchases",
   "Product_importance", "Gender", "Discount_offered", "Weight_in_gms",
   "Reached.on.Time_Y.N"]

/-- The fixed 12-pair source-to-snake-case rename used by
`transform_data`. -/
def column_mapping : List (String × String) :=
  [("ID", "id"),
   ("Warehouse_block", "warehouse_block"),
   ("Mode_of_Shipment", "mode_of_shipment"),
   ("Customer_care_calls", "customer_care_calls"),
   ("Customer_rating", "customer_rating"),
   ("Cost_of_the_Product", "cost_of_the_product"),
   ("Prior_purchases", "prior_purchases"),
   ("Product_importance", "product_importance"),
   ("Gender", "gender"),
   ("Discount_offered", "discount_offered"),
   ("Weight_in_gms", "weight_in_gms"),
   ("Reached.on.Time_Y.N", "reached_on_time")]

/-- `df.rename(columns=column_mapping)` on a single label: mapped labels
are replaced, others kept. -/
def renameCol (c : String) : String :=
  (column_mapping.lookup c).getD c

/-- The seven columns coerced with `pd.to_numeric(..., errors='coerce')`. -/
def numeric_columns : List String :=
  ["customer_care_calls", "customer_rating", "cost_of_the_product",
   "prior_purchases", "discount_offered", "weight_in_gms",
   "reached_on_time"]

/-- The three columns zero-filled by `fillna`. -/
def fill_zero_columns : List String :=
  ["customer_care_calls", "prior_purchases", "discount_offered"]

/-- `pd.to_numeric(v, errors='coerce')` on one cell: integers pass
through, parseable strings become integers, anything unparseable (and
`NaN`) becomes `NaN`. Never raises. -/
def to_numeric (v : Value) : Value :=
  match v with
  | .int n => .int n
  | .na => .na
  | .str s =>
    match s.toInt? with
    | some n => .int n
    | none => .na

/-- `fillna(0)` on one cell of a targeted column. -/
def fillZero (v : Value) : Value :=
  if v = Value.na then Value.int 0 else v

/-- One comparison step of `Series.between(lo, hi)`: integers compare,
`NaN` compares false, a string raises `TypeError` (pandas object-dtype
comparison with an integer bound). -/
def betweenVal (v : Value) (lo hi : Int) : Except String Bool :=
  match v with
  | .int n => .ok (decide (lo ≤ n) && decide (n ≤ hi))
  | .na => .ok false
  | .str _ => .error "TypeError: comparison of str and int not supported"

/-- `series.between(lo, hi).all()`: raises if any element is a string,
otherwise true iff every element is an in-range integer. -/
def seriesBetween : List Value → Int → Int → Except String Bool
  | [], _, _ => .ok true
  | v :: vs, lo, hi =>
    match betweenVal v lo hi, seriesBetween vs lo hi with
    | .error e, _ => .error e
    | .ok _, .error e => .error e
    | .ok b, .ok rest => .ok (b && rest)

/-- `series.isin([0, 1])` on one cell (pure equality test, never
raises). -/
def isinZeroOne (v : Value) : Bool :=
  [Value.int 0, Value.int 1].contains v

/-- `validate_data(df)`: asserts the 12 required columns are present,
then that every customer rating is in `[1, 5]`, then that every
reached-on-time flag is `0` or `1`; returns `True` on success, raises the
corresponding assertion message otherwise. -/
def validate_data (df : DataFrame) : Except String Bool :=
  if requiredColumns.all (fun c => df.cols.contains c) then
    match seriesBetween (df.getCol "Customer_rating") 1 5 with
    | .error e => .error e
    | .ok rOk =>
      if rOk then
        if (df.getCol "Reached.on.Time_Y.N").all isinZeroOne then
          .ok true
        else .error "Invalid reached on time values"
      else .error "Invalid customer ratings"
  else .error "Missing required columns"

/-- Column-wise assignment `df[c] = f(df[c])`: applies `f` to every cell
of every column labelled `c`. -/
def applyCol (f : Value → Value) (c : String) (d : DataFrame) : DataFrame :=
  { d with rows := d.rows.map (fun r =>
      List.zipWith (fun c2 v => if c2 == c then f v else v) d.cols r) }

/-- `transform_data(df)`: validates, copies, renames the columns, coerces
the seven numeric columns, then zero-fills the three `fillna` columns.
Propagates the validation error unchanged. -/
def transform_data (df : DataFrame) : Except String DataFrame :=
  match validate_data df with
  | .error e => .error e
  | .ok _ =>
    let t := { df with cols := df.cols.map renameCol }
    let t := numeric_columns.foldl (fun d c => applyCol to_numeric c d) t
    let t := fill_zero_columns.foldl (fun d c => applyCol fillZero c d) t
    .ok t

/-- The input frame viewed under the renamed headers (values untouched);
used to state which source value sits under each target column name. -/
def renamedView (df : DataFrame) : DataFrame :=
  { df with cols := df.cols.map renameCol }

/-! ### The target store

A stored row of `warehouse.shipments` is a list of field assignments
(column name, value); the table is the list of its rows.  Columns not
assigned by an `INSERT` (such as `created_at`) are simply absent from
that row's assignment list. -/

/-- One persisted row: an assignment of values to column names. -/
abbrev StoredRow := List (String × Value)

/-- The persisted `warehouse.shipments` relation. -/
abbrev Table := List StoredRow

/-- `UPDATE ... SET c = v` on one stored row: overwrites every existing
assignment to `c`, or appends one if the row has none. -/
def setField (r : StoredRow) (c : String) (v : Value) : StoredRow :=
  if r.any (fun p => p.1 == c) then
    r.map (fun p => if p.1 == c then (p.1, v) else p)
  else r ++ [(c, v)]

/-- The `ON CONFLICT (id) DO UPDATE SET col = EXCLUDED.col` action: every
column of the statement's column list except `id` is overwritten with the
incoming row's value. -/
def updateOnConflict (cols : List String) (incoming : StoredRow)
    (r : StoredRow) : StoredRow :=
  (cols.filter (fun c => c != "id")).foldl
    (fun r c =>
      match incoming.lookup c with
      | some v => setField r c v
      | none => r) r

/-- One execution of the upsert statement with parameter tuple `vals`:
insert `cols.zip vals`, or, if a row with the same `id` value exists,
update every such row's non-key columns from the incoming values. -/
def upsertRow (cols : List String) (t : Table) (vals : List Value) : Table :=
  let incoming := cols.zip vals
  if t.any (fun r => r.lookup "id" == incoming.lookup "id") then
    t.map (fun r =>
      if r.lookup "id" == incoming.lookup "id" then
        updateOnConflict cols incoming r
      else r)
  else t ++ [incoming]

/-- `cur.executemany` of the upsert over all rows of the batch, in
order. -/
def applyBatch (df : DataFrame) (t : Table) : Table :=
  df.rows.foldl (fun t vals => upsertRow df.cols t vals) t

/-- The id value a batch row proposes (the cell under the `id` column of
the insert's column list). -/
def rowId (cols : List String) (r : List Value) : Option Value :=
  (cols.zip r).lookup "id"

/-! ### Configuration and connections -/

/-- The process environment (`os.getenv`). -/
def Env := String → Option String

/-- `os.getenv(name, default)`. -/
def getenv (env : Env) (name default : String) : String :=
  (env name).getD default

/-- The five connection settings of `DB_CONFIG`. -/
structure Config where
  dbname : String
  user : String
  password : String
  host : String
  port : String
deriving DecidableEq, Repr

/-- `DB_CONFIG`: each setting read from the environment with its
documented default. -/
def DB_CONFIG (env : Env) : Config :=
  { dbname := getenv env "DB_NAME" "train"
    user := getenv env "DB_USER" "postgre"
    password := getenv env "DB_PASSWORD" "postgre"
    host := getenv env "DB_HOST" "localhost"
    port := getenv env "DB_PORT" "5432" }

/-- The keyword arguments `get_connection` hands to `psycopg2.connect`;
`port = none` means the argument is omitted (driver default). -/
structure ConnParams where
  dbname : String
  user : String
  password : String
  host : String
  port : Option String
deriving DecidableEq, Repr

/-- `get_connection(database)`: for the bootstrap database `postgres` it
passes `dbname`, `user`, `password` and `host` only; otherwise it passes
the whole of `DB_CONFIG` (including the port). -/
def get_connection (env : Env) (database : String) : ConnParams :=
  if database == "postgres" then
    { dbname := "postgres"
      user := (DB_CONFIG env).user
      password := (DB_CONFIG env).password
      host := (DB_CONFIG env).host
      port := none }
  else
    { dbname := (DB_CONFIG env).dbname
      user := (DB_CONFIG env).user
      password := (DB_CONFIG env).password
      host := (DB_CONFIG env).host
      port := some (DB_CONFIG env).port }

/-! ### Provisioning -/

/-- One column definition of the `CREATE TABLE` statement. -/
structure ColumnDef where
  name : String
  decl : String
deriving DecidableEq, Repr

/-- The column list of `CREATE TABLE IF NOT EXISTS warehouse.shipments`. -/
def shipmentsColumns : List ColumnDef :=
  [⟨"id", "INTEGER PRIMARY KEY"⟩,
   ⟨"warehouse_block", "VARCHAR(50)"⟩,
   ⟨"mode_of_shipment", "VARCHAR(50)"⟩,
   ⟨"customer_care_calls", "INTEGER"⟩,
   ⟨"customer_rating", "INTEGER CHECK (customer_rating BETWEEN 1 AND 5)"⟩,
   ⟨"cost_of_the_product", "INTEGER"⟩,
   ⟨"prior_purchases", "INTEGER"⟩,
   ⟨"product_importance", "VARCHAR(50)"⟩,
   ⟨"gender", "VARCHAR(50)"⟩,
   ⟨"discount_offered", "INTEGER"⟩,
   ⟨"weight_in_gms", "INTEGER"⟩,
   ⟨"reached_on_time", "INTEGER CHECK (reached_on_time IN (0, 1))"⟩,
   ⟨"created_at", "TIMESTAMP DEFAULT CURRENT_TIMESTAMP"⟩]

/-- The server catalog: existing databases, schemas of the target
database, and tables (with their definitions). -/
structure DBState where
  databases : List String
  schemas : List String
  tables : List (String × List ColumnDef)
deriving DecidableEq, Repr

/-- A server with no target objects provisioned yet. -/
def freshDB : DBState :=
  { databases := [], schemas := [], tables := [] }

/-- `create_database()`: queries `pg_database` for the configured name
and issues `CREATE DATABASE` only if absent (via the bootstrap
connection, autocommit). -/
def create_database (env : Env) (s : DBState) : DBState :=
  if s.databases.contains (DB_CONFIG env).dbname then s
  else { s with databases := s.databases ++ [(DB_CONFIG env).dbname] }

/-- `create_schema()`: connects to the target database (failing if it
does not exist) and issues `CREATE SCHEMA IF NOT EXISTS warehouse`. -/
def create_schema (env : Env) (s : DBState) : Except String DBState :=
  if s.databases.contains (DB_CONFIG env).dbname then
    if s.schemas.contains "warehouse" then .ok s
    else .ok { s with schemas := s.schemas ++ ["warehouse"] }
  else .error "Database connection failed"

/-- `create_table()`: connects to the target database and issues
`CREATE TABLE IF NOT EXISTS warehouse.shipments (...)`. -/
def create_table (env : Env) (s : DBState) : Except String DBState :=
  if s.databases.contains (DB_CONFIG env).dbname then
    if s.tables.any (fun t => t.1 == "warehouse.shipments") then .ok s
    else .ok { s with tables := s.tables ++ [("warehouse.shipments", shipmentsColumns)] }
  else .error "Database connection failed"

/-- The three provisioning operations in the order `main` runs them. -/
def provision (env : Env) (s : DBState) : Except String DBState :=
  match create_schema env (create_database env s) with
  | .error e => .error e
  | .ok s2 => create_table env s2

/-! ### The load stage

`load_data` runs the batched upsert inside one transaction.  The
sequential `executemany` is modelled with an injectable failure point
(`failAt = some (k, e)`: the statement raises `e` on the parameter tuple
of index `k`), and the transaction with a working copy of the table that
only `commit` publishes. -/

/-- Sequential `executemany` over the remaining parameter tuples of the
batch, acting on the transaction's working table; `some (0, e)` raises
`e` before applying the current tuple. -/
def executemany (cols : List String) :
    List (List Value) → Option (Nat × String) → Table → Except String Table
  | [], _, w => .ok w
  | _ :: _, some (0, e), _ => .error e
  | r :: rs, some (k + 1, e), w =>
    executemany cols rs (some (k, e)) (upsertRow cols w r)
  | r :: rs, none, w =>
    executemany cols rs none (upsertRow cols w r)

/-- The observable outcome of one `load_data` call: the committed state
of the table, whether the cursor and connection were closed, and the
value returned or the error raised. -/
structure LoadOutcome where
  committed : Table
  released : Bool
  result : Except String Nat
deriving Repr

/-- `load_data(df)` against committed table `t`.  `connErr` injects a
failure of `get_connection` itself; `failAt` injects a statement failure
inside `executemany`.  On statement failure the transaction is rolled
back (the committed table is unchanged) and the driver error is
re-raised after logging; on success the transaction commits and the row
count is reported.  When `get_connection` raises, the `except` block
evaluates `conn.rollback()` and the `finally` block `cur.close()` on
names that were never bound, so the call raises `UnboundLocalError` and
closes nothing. -/
def load_data_run (df : DataFrame) (t : Table) (connErr : Option String)
    (failAt : Option (Nat × String)) : LoadOutcome :=
  match connErr with
  | some _ =>
    { committed := t, released := false
      result := .error "UnboundLocalError: cur" }
  | none =>
    match executemany df.cols df.rows failAt t with
    | .ok w =>
      { committed := w, released := true, result := .ok df.rows.length }
    | .error e =>
      { committed := t, released := true, result := .error e }

/-- The observable outcome of one `create_database` call. -/
structure ProvisionOutcome where
  db : DBState
  released : Bool
  result : Except String Unit
deriving Repr

/-- `create_database()` with an injectable failure of `get_connection`.
When the connection opens, the catalog check-and-create runs and the
`finally` block closes cursor and connection.  When `get_connection`
raises, the `except` block logs and re-raises, and the `finally` block
evaluates `cur.close()` on a name that was never bound, raising
`UnboundLocalError` instead and closing nothing. -/
def create_database_run (env : Env) (s : DBState) (connErr : Option String) :
    ProvisionOutcome :=
  match connErr with
  | some _ =>
    { db := s, released := false, result := .error "UnboundLocalError: cur" }
  | none =>
    { db := create_database env s, released := true, result := .ok () }

/-! ### The orchestrator -/

/-- The full persistent state `main` acts on. -/
structure ETLState where
  db : DBState
  shipments : Table
deriving DecidableEq, Repr

/-- The load stage as `main` invokes it (happy connection path): connects
to the target database and applies the batched upsert in one committed
transaction. -/
def load_data (env : Env) (s : ETLState) (df : DataFrame) :
    Except String (ETLState × Nat) :=
  if s.db.databases.contains (DB_CONFIG env).dbname then
    .ok ({ s with shipments := applyBatch df s.shipments }, df.rows.length)
  else .error "Database connection failed"

/-- `main()`: provision database, schema and table, then extract (the
parsed CSV batch is the `csv` argument), transform and load; any stage's
error aborts the run and is re-raised. -/
def main_run (env : Env) (csv : DataFrame) (s : ETLState) :
    ETLState × Except String Unit :=
  let db1 := create_database env s.db
  match create_schema env db1 with
  | .error e => ({ s with db := db1 }, .error e)
  | .ok db2 =>
    match create_table env db2 with
    | .error e => ({ s with db := db2 }, .error e)
    | .ok db3 =>
      let s3 := { s with db := db3 }
      match transform_data csv with
      | .error e => (s3, .error e)
      | .ok dft =>
        match load_data env s3 dft with
        | .error e => (s3, .error e)
        | .ok (s4, _) => (s4, .ok ())

/-! ### Python object identity

A heap of dataframe objects, for the claims about `df.copy()` and
in-place mutation: `transform_data` must leave the object its argument
names untouched. -/

/-- A heap of dataframe objects; `next` is the next fresh address. -/
structure PyHeap where
  cells : Nat → Option DataFrame
  next : Nat

/-- Allocate a fresh dataframe object (`df.copy()`, or a fresh result
object such as the one `fillna` returns). -/
def PyHeap.alloc (h : PyHeap) (d : DataFrame) : PyHeap × Nat :=
  ({ cells := fun n => if n = h.next then some d else h.cells n
     next := h.next + 1 }, h.next)

/-- Overwrite the object at address `r` (an in-place mutation such as
`rename(..., inplace=True)` or a column assignment). -/
def PyHeap.write (h : PyHeap) (r : Nat) (d : DataFrame) : PyHeap :=
  { h with cells := fun n => if n = r then some d else h.cells n }

/-- Dereference address `r`. -/
def PyHeap.read (h : PyHeap) (r : Nat) : DataFrame :=
  (h.cells r).getD ⟨[], []⟩

/-- `validate_data` at object level: it only reads its argument, so the
heap passes through unchanged. -/
def validate_data_run (h : PyHeap) (dfRef : Nat) :
    PyHeap × Except String Bool :=
  (h, validate_data (h.read dfRef))

/-- `transform_data` at object level: validate the argument object, copy
it to a fresh cell, rename in place, assign each coerced numeric column
in place, then bind the fresh frame `fillna` returns; the address of
that result object is returned. -/
def transform_data_run (h : PyHeap) (dfRef : Nat) :
    PyHeap × Except String Nat :=
  match validate_data (h.read dfRef) with
  | .error e => (h, .error e)
  | .ok _ =>
    let tRef := h.next
    let h1 := (h.alloc (h.read dfRef)).1
    let h2 := h1.write tRef { h1.read tRef with cols := (h1.read tRef).cols.map renameCol }
    let h3 := numeric_columns.foldl
      (fun hh c => hh.write tRef (applyCol to_numeric c (hh.read tRef))) h2
    let p2 := h3.alloc (fill_zero_columns.foldl
      (fun d c => applyCol fillZero c d) (h3.read tRef))
    (p2.1, .ok p2.2)

/-! ## Lemmas about validation -/

theorem seriesBetween_ok_of_in_range {lo hi : Int} :
    ∀ {vs : List Value},
      (∀ v ∈ vs, ∃ n, v = Value.int n ∧ lo ≤ n ∧ n ≤ hi) →
      seriesBetween vs lo hi = .ok true := by
  intro vs
  induction vs with
  | nil => intro _; rfl
  | cons v vs ih =>
    intro h
    obtain ⟨n, rfl, hlo, hhi⟩ := h v (List.mem_cons_self v vs)
    have hrest := ih (fun w hw => h w (List.mem_cons_of_mem _ hw))
    simp [seriesBetween, betweenVal, hrest, hlo, hhi]

theorem seriesBetween_exists_ok (lo hi : Int) :
    ∀ {vs : List Value},
      (∀ v ∈ vs, (∃ n, v = Value.int n) ∨ v = Value.na) →
      ∃ b, seriesBetween vs lo hi = .ok b := by
  intro vs
  induction vs with
  | nil => intro _; exact ⟨true, rfl⟩
  | cons v vs ih =>
    intro h
    obtain ⟨b, hb⟩ := ih (fun w hw => h w (List.mem_cons_of_mem v hw))
    rcases h v (List.mem_cons_self v vs) with ⟨n, rfl⟩ | rfl
    · refine ⟨(decide (lo ≤ n) && decide (n ≤ hi)) && b, ?_⟩
      simp only [seriesBetween, betweenVal, hb]
    · refine ⟨false, ?_⟩
      simp only [seriesBetween, betweenVal, hb, Bool.false_and]

theorem seriesBetween_false_of_out_of_range {lo hi n : Int}
    (hout : n < lo ∨ hi < n) :
    ∀ {vs : List Value} {b : Bool}, Value.int n ∈ vs →
      seriesBetween vs lo hi = .ok b → b = false := by
  intro vs
  induction vs with
  | nil => intro b hmem _; cases hmem
  | cons v vs ih =>
    intro b hmem h
    have hval : betweenVal (Value.int n) lo hi = .ok false := by
      rcases hout with hlt | hlt <;> simp [betweenVal, not_le.mpr hlt]
    rcases List.mem_cons.mp hmem with rfl | hmem2
    · rcases hrest : seriesBetween vs lo hi with e | brest <;>
        simp only [seriesBetween, hval, hrest, Bool.false_and] at h
      · cases h
      · exact (Except.ok.inj h).symm
    · rcases hv : betweenVal v lo hi with e | bv <;>
        rcases hrest : seriesBetween vs lo hi with e2 | brest <;>
          simp only [seriesBetween, hv, hrest] at h
      · cases h
      · cases h
      · cases h
      · have hb : brest = false := ih hmem2 hrest
        subst hb
        rw [← Except.ok.inj h, Bool.and_false]

theorem validate_ok_columns {df : DataFrame}
    (h : validate_data df = .ok true) :
    ∀ c ∈ requiredColumns, df.cols.contains c = true := by
  intro c hc
  unfold validate_data at h
  by_cases hall : requiredColumns.all (fun c => df.cols.contains c) = true
  · exact List.all_eq_true.mp hall c hc
  · rw [if_neg hall] at h
    cases h

/-! ## C10: validation checks column presence, not exactness -/

/-- **C10.** Validation checks column presence, not column exactness: any
batch containing the 12 required source columns, with every
`Customer_rating` value in `[1, 5]` and every `Reached.on.Time_Y.N` value
in `{0, 1}`, passes `validate_data` — including batches with additional
columns beyond the required 12. -/
theorem C10_validation_accepts_extra_columns (df : DataFrame)
    (hcols : ∀ c ∈ requiredColumns, df.cols.contains c = true)
    (hrating : ∀ v ∈ df.getCol "Customer_rating",
      ∃ n, v = Value.int n ∧ 1 ≤ n ∧ n ≤ 5)
    (hflag : ∀ v ∈ df.getCol "Reached.on.Time_Y.N",
      v = Value.int 0 ∨ v = Value.int 1) :
    validate_data df = .ok true := by
  have h1 : requiredColumns.all (fun c => df.cols.contains c) = true :=
    List.all_eq_true.mpr hcols
  have h2 : seriesBetween (df.getCol "Customer_rating") 1 5 = .ok true :=
    seriesBetween_ok_of_in_range hrating
  have h3 : (df.getCol "Reached.on.Time_Y.N").all isinZeroOne = true := by
    refine List.all_eq_true.mpr ?_
    intro v hv
    rcases hflag v hv with rfl | rfl <;> rfl
  simp [validate_data, h1, h2, h3]
  intro x hx
  simpa using hcols x hx

/-- A valid batch carrying the 12 required columns plus a 13th column
`Extra_notes`. -/
def dfExtra : DataFrame :=
  { cols := requiredColumns ++ ["Extra_notes"]
    rows := [[Value.int 1, Value.str "A", Value.str "Flight", Value.int 4,
              Value.int 2, Value.int 177, Value.int 3, Value.str "low",
              Value.str "F", Value.int 44, Value.int 1233, Value.int 1,
              Value.str "note"]] }

/-- Witness for C10 at a concrete 13-column batch. -/
theorem C10_witness :
    (∀ c ∈ requiredColumns, dfExtra.cols.contains c = true) ∧
    "Extra_notes" ∈ dfExtra.cols ∧ "Extra_notes" ∉ requiredColumns ∧
    validate_data dfExtra = .ok true := by
  refine ⟨by decide, by decide, by decide,
    C10_validation_accepts_extra_columns dfExtra (by decide) ?_ ?_⟩
  · intro v hv
    have hcol : dfExtra.getCol "Customer_rating" = [Value.int 2] := rfl
    rw [hcol] at hv
    rw [List.mem_singleton.mp hv]
    exact ⟨2, rfl, by norm_num⟩
  · intro v hv
    have hcol : dfExtra.getCol "Reached.on.Time_Y.N" = [Value.int 1] := rfl
    rw [hcol] at hv
    rw [List.mem_singleton.mp hv]
    right
    rfl

/-! ## C9: connection parameters -/

/-- An environment that overrides the port setting. -/
def envPort6543 : Env :=
  fun k => if k = "DB_PORT" then some "6543" else none

/-- **C9, counterexample.** With `DB_PORT=6543` the bootstrap connection
does not receive the configured port: `get_connection` omits the port
argument entirely for the `postgres` branch, so the driver default is
used there, contradicting the claim that the configured port is used for
both connections. -/
theorem C9_counterexample :
    (DB_CONFIG envPort6543).port = "6543" ∧
    (get_connection envPort6543 "postgres").port = none ∧
    (get_connection envPort6543 "postgres").port ≠
      some (DB_CONFIG envPort6543).port ∧
    (get_connection envPort6543 "train").port =
      some (DB_CONFIG envPort6543).port := by
  refine ⟨rfl, rfl, ?_, rfl⟩
  decide

/-- **C9, amended.** The Connection Provider, given the target-database
flag, opens a connection to either the bootstrap database or the target
database using the five configured connection parameters with defaults
`train`, `postgre`, `postgre`, `localhost`, `5432`; the configured host
(with user and password) is used for both connections, but the
configured port is passed only for the target connection — the bootstrap
connection omits the port and relies on the driver default. -/
theorem C9_connection_params (env : Env) :
    get_connection env "postgres" =
      { dbname := "postgres", user := (DB_CONFIG env).user,
        password := (DB_CONFIG env).password, host := (DB_CONFIG env).host,
        port := none } ∧
    (∀ database, database ≠ "postgres" →
      get_connection env database =
        { dbname := (DB_CONFIG env).dbname, user := (DB_CONFIG env).user,
          password := (DB_CONFIG env).password, host := (DB_CONFIG env).host,
          port := some (DB_CONFIG env).port }) ∧
    DB_CONFIG (fun _ => none) =
      { dbname := "train", user := "postgre", password := "postgre",
        host := "localhost", port := "5432" } := by
  refine ⟨rfl, ?_, rfl⟩
  intro database hdb
  unfold get_connection
  rw [if_neg]
  simp [hdb]

/-- Witness for C9 at the default environment and target database
`train`. -/
theorem C9_witness :
    ("train" : String) ≠ "postgres" ∧
    get_connection (fun _ => none) "train" =
      { dbname := (DB_CONFIG (fun _ => none)).dbname,
        user := (DB_CONFIG (fun _ => none)).user,
        password := (DB_CONFIG (fun _ => none)).password,
        host := (DB_CONFIG (fun _ => none)).host,
        port := some (DB_CONFIG (fun _ => none)).port } :=
  ⟨by decide, (C9_connection_params (fun _ => none)).2.1 "train" (by decide)⟩

/-! ## C5: provisioning is idempotent -/

/-- **C5.** Running the three provisioning operations (ensure database,
ensure schema, ensure table) twice in sequence against a fresh target
store leaves the store exactly as running them once: one database (the
configured name), one schema `warehouse`, and one table
`warehouse.shipments` with the same column definitions. -/
theorem C5_provision_idempotent (env : Env) :
    ∃ s1 : DBState,
      provision env freshDB = .ok s1 ∧
      (provision env freshDB).bind (provision env) = .ok s1 ∧
      s1.databases = [(DB_CONFIG env).dbname] ∧
      s1.schemas = ["warehouse"] ∧
      s1.tables = [("warehouse.shipments", shipmentsColumns)] := by
  refine ⟨{ databases := [(DB_CONFIG env).dbname],
            schemas := ["warehouse"],
            tables := [("warehouse.shipments", shipmentsColumns)] },
          ?_, ?_, rfl, rfl, rfl⟩ <;>
    simp [provision, create_database, create_schema, create_table, freshDB,
      Except.bind]

/-! ## C8: connection release on every exit path -/

/-- **C8 (bug evidence).** When `get_connection` itself raises, the
`finally` blocks of `create_database` and `load_data` evaluate
`cur.close()` (and, in `load_data`, the `except` block evaluates
`conn.rollback()`) on names that were never bound: the call raises
`UnboundLocalError` — a new error from the cleanup path — and no cursor
or connection is released by the operation.  On the successful
connection path the release does happen. -/
theorem C8_cleanup_bug :
    (create_database_run (fun _ => none) freshDB (some "connection refused")).released = false ∧
    (create_database_run (fun _ => none) freshDB (some "connection refused")).result =
      .error "UnboundLocalError: cur" ∧
    (load_data_run ⟨["id"], [[Value.int 1]]⟩ [] (some "connection refused") none).released = false ∧
    (load_data_run ⟨["id"], [[Value.int 1]]⟩ [] (some "connection refused") none).result =
      .error "UnboundLocalError: cur" ∧
    (create_database_run (fun _ => none) freshDB none).released = true :=
  ⟨rfl, rfl, rfl, rfl, rfl⟩

/-! ## C6: the load stage is all-or-nothing -/

theorem executemany_none (cols : List String) :
    ∀ (rows : List (List Value)) (t : Table),
      executemany cols rows none t =
        .ok (rows.foldl (fun t r => upsertRow cols t r) t) := by
  intro rows
  induction rows with
  | nil => intro t; rfl
  | cons r rs ih => intro t; rw [executemany, ih, List.foldl_cons]

theorem executemany_fail (cols : List String) (e : String) :
    ∀ (k : Nat) (rows : List (List Value)) (t : Table),
      k < rows.length →
      executemany cols rows (some (k, e)) t = .error e := by
  intro k
  induction k with
  | zero =>
    intro rows t hk
    match rows with
    | [] => cases hk
    | r :: rs => rfl
  | succ k ih =>
    intro rows t hk
    match rows with
    | [] => cases hk
    | r :: rs =>
      rw [executemany]
      exact ih rs _ (Nat.lt_of_succ_lt_succ hk)

/-- A one-row batch for the `id` column. -/
def dfOneRow : DataFrame :=
  { cols := ["id"], rows := [[Value.int 1]] }

/-- A two-row batch for the `id` column. -/
def dfTwoRows : DataFrame :=
  { cols := ["id"], rows := [[Value.int 1], [Value.int 2]] }

/-- **C6, counterexample.** On a statement error, `load_data` re-raises
the underlying driver error verbatim: two failing loads with different
attempted row counts (1 and 2) raise the identical message, so the error
raised does not name the row count attempted (nor does the logged line
`Error in load_data: ...`). -/
theorem C6_counterexample :
    (load_data_run dfOneRow [] none (some (0, "ERROR: invalid input syntax"))).result =
      .error "ERROR: invalid input syntax" ∧
    (load_data_run dfTwoRows [] none (some (0, "ERROR: invalid input syntax"))).result =
      .error "ERROR: invalid input syntax" ∧
    dfOneRow.rows.length ≠ dfTwoRows.rows.length :=
  ⟨rfl, rfl, by decide⟩

/-- **C6, amended.** The load stage persists all rows of the batch in a
single transaction: if executing the batched upsert raises at any row,
the entire transaction is rolled back so no row of the batch is
committed, the connection is released, and the underlying error is
re-raised unchanged (it does not name the row count attempted); on
success the whole batch is committed and the count of rows loaded is
reported. -/
theorem C6_load_transactional (df : DataFrame) (t : Table) (k : Nat)
    (e : String) (hk : k < df.rows.length) :
    (load_data_run df t none (some (k, e))).committed = t ∧
    (load_data_run df t none (some (k, e))).released = true ∧
    (load_data_run df t none (some (k, e))).result = .error e ∧
    (load_data_run df t none none).committed = applyBatch df t ∧
    (load_data_run df t none none).released = true ∧
    (load_data_run df t none none).result = .ok df.rows.length := by
  have hfail := executemany_fail df.cols e k df.rows t hk
  have hok := executemany_none df.cols df.rows t
  unfold load_data_run
  rw [hfail, hok]
  exact ⟨rfl, rfl, rfl, rfl, rfl, rfl⟩

/-- Witness for C6 at a two-row batch failing on its first row. -/
theorem C6_witness :
    0 < dfTwoRows.rows.length ∧
    ((load_data_run dfTwoRows [] none (some (0, "boom"))).committed = [] ∧
     (load_data_run dfTwoRows [] none (some (0, "boom"))).released = true ∧
     (load_data_run dfTwoRows [] none (some (0, "boom"))).result = .error "boom" ∧
     (load_data_run dfTwoRows [] none none).committed = applyBatch dfTwoRows [] ∧
     (load_data_run dfTwoRows [] none none).released = true ∧
     (load_data_run dfTwoRows [] none none).result = .ok dfTwoRows.rows.length) :=
  ⟨by decide, C6_load_transactional dfTwoRows [] 0 "boom" (by decide)⟩

/-! ## Orchestrator lemmas: a validation failure reaches no load -/

theorem create_database_contains (env : Env) (s : DBState) :
    (create_database env s).databases.contains (DB_CONFIG env).dbname = true := by
  unfold create_database
  by_cases h : s.databases.contains (DB_CONFIG env).dbname = true
  · rw [if_pos h]
    exact h
  · rw [if_neg h]
    simp

theorem create_schema_ok (env : Env) (s : DBState)
    (h : s.databases.contains (DB_CONFIG env).dbname = true) :
    ∃ s2, create_schema env s = .ok s2 ∧
      s2.databases = s.databases ∧
      s2.schemas.contains "warehouse" = true := by
  by_cases hw : s.schemas.contains "warehouse" = true
  · refine ⟨s, ?_, rfl, hw⟩
    unfold create_schema
    rw [if_pos h, if_pos hw]
  · refine ⟨{ s with schemas := s.schemas ++ ["warehouse"] }, ?_, rfl, ?_⟩
    · unfold create_schema
      rw [if_pos h, if_neg hw]
    · simp

theorem create_table_ok (env : Env) (s : DBState)
    (h : s.databases.contains (DB_CONFIG env).dbname = true) :
    ∃ s3, create_table env s = .ok s3 ∧ s3.databases = s.databases := by
  by_cases ht : s.tables.any (fun t => t.1 == "warehouse.shipments") = true
  · refine ⟨s, ?_, rfl⟩
    unfold create_table
    rw [if_pos h, if_pos ht]
  · refine ⟨{ s with tables := s.tables ++ [("warehouse.shipments", shipmentsColumns)] },
      ?_, rfl⟩
    unfold create_table
    rw [if_pos h, if_neg ht]

/-- If the transform stage raises, `main` re-raises that error and the
shipments table is never written. -/
theorem main_run_transform_error (env : Env) (csv : DataFrame)
    (s : ETLState) (e : String) (ht : transform_data csv = .error e) :
    (main_run env csv s).2 = .error e ∧
    (main_run env csv s).1.shipments = s.shipments := by
  obtain ⟨db2, hdb2, hdb2d, _⟩ :=
    create_schema_ok env (create_database env s.db)
      (create_database_contains env s.db)
  obtain ⟨db3, hdb3, _⟩ :=
    create_table_ok env db2 (by rw [hdb2d]; exact create_database_contains env s.db)
  simp only [main_run, hdb2, hdb3, ht]
  constructor <;> trivial

theorem transform_error_of_validate {df : DataFrame} {e : String}
    (hv : validate_data df = .error e) : transform_data df = .error e := by
  unfold transform_data
  rw [hv]

/-! ## C4: a missing required column aborts before any row write -/

theorem validate_missing_column {df : DataFrame} {c : String}
    (hc : c ∈ requiredColumns) (hm : df.cols.contains c = false) :
    validate_data df = .error "Missing required columns" := by
  unfold validate_data
  rw [if_neg]
  intro hall
  rw [List.all_eq_true.mp hall c hc] at hm
  cases hm

/-- **C4.** For every input batch missing at least one of the 12 required
source-named columns, validation raises `Missing required columns`
before the load stage runs: the pipeline run re-raises that error and
leaves the shipments table untouched (no database write of row data). -/
theorem C4_missing_column_no_write (env : Env) (csv : DataFrame)
    (s : ETLState) (c : String) (hc : c ∈ requiredColumns)
    (hm : csv.cols.contains c = false) :
    validate_data csv = .error "Missing required columns" ∧
    (main_run env csv s).2 = .error "Missing required columns" ∧
    (main_run env csv s).1.shipments = s.shipments := by
  have hv := validate_missing_column hc hm
  have hmain := main_run_transform_error env csv s _
    (transform_error_of_validate hv)
  exact ⟨hv, hmain.1, hmain.2⟩

/-- An 11-column batch: the `Gender` column is missing. -/
def csvMissingGender : DataFrame :=
  { cols := ["ID", "Warehouse_block", "Mode_of_Shipment", "Customer_care_calls",
             "Customer_rating", "Cost_of_the_Product", "Prior_purchases",
             "Product_importance", "Discount_offered", "Weight_in_gms",
             "Reached.on.Time_Y.N"]
    rows := [[Value.int 1, Value.str "A", Value.str "Flight", Value.int 4,
              Value.int 2, Value.int 177, Value.int 3, Value.str "low",
              Value.int 44, Value.int 1233, Value.int 1]] }

/-- Witness for C4: a batch missing `Gender`, loaded against a store with
one pre-existing row, leaves that store unchanged. -/
theorem C4_witness :
    "Gender" ∈ requiredColumns ∧
    csvMissingGender.cols.contains "Gender" = false ∧
    (validate_data csvMissingGender = .error "Missing required columns" ∧
     (main_run (fun _ => none) csvMissingGender
        ⟨freshDB, [[("id", Value.int 9)]]⟩).2 = .error "Missing required columns" ∧
     (main_run (fun _ => none) csvMissingGender
        ⟨freshDB, [[("id", Value.int 9)]]⟩).1.shipments = [[("id", Value.int 9)]]) :=
  ⟨by decide, by decide,
    C4_missing_column_no_write (fun _ => none) csvMissingGender
      ⟨freshDB, [[("id", Value.int 9)]]⟩ "Gender" (by decide) (by decide)⟩

/-! ## C3: out-of-range values reject the whole batch -/

/-- **C3.** For every batch (with the required columns present, the
checked columns holding numeric or missing values) in which some
`Customer_rating` value lies outside `[1, 5]` or some
`Reached.on.Time_Y.N` value is not `0` or `1`, the Validator fails with
the assertion message naming the first check that failed (`Invalid
customer ratings` or `Invalid reached on time values`), the whole batch
is rejected as a unit, and the pipeline run loads no rows: the shipments
table is untouched. -/
theorem C3_range_validation (env : Env) (df : DataFrame) (s : ETLState)
    (hcols : ∀ c ∈ requiredColumns, df.cols.contains c = true)
    (hcomp : ∀ v ∈ df.getCol "Customer_rating",
      (∃ n, v = Value.int n) ∨ v = Value.na)
    (hbad : (∃ n : Int, Value.int n ∈ df.getCol "Customer_rating" ∧
              (n < 1 ∨ 5 < n)) ∨
            (∃ v ∈ df.getCol "Reached.on.Time_Y.N",
              v ≠ Value.int 0 ∧ v ≠ Value.int 1)) :
    ∃ m, validate_data df = .error m ∧
      ((m = "Invalid customer ratings" ∧
         seriesBetween (df.getCol "Customer_rating") 1 5 = .ok false) ∨
       (m = "Invalid reached on time values" ∧
         seriesBetween (df.getCol "Customer_rating") 1 5 = .ok true ∧
         (df.getCol "Reached.on.Time_Y.N").all isinZeroOne = false)) ∧
      (main_run env df s).2 = .error m ∧
      (main_run env df s).1.shipments = s.shipments := by
  have hcolsP : ∀ x ∈ requiredColumns, x ∈ df.cols := by
    intro x hx
    simpa using hcols x hx
  obtain ⟨b, hb⟩ := seriesBetween_exists_ok 1 5 hcomp
  have finishRatings : b = false →
      ∃ m, validate_data df = .error m ∧
        ((m = "Invalid customer ratings" ∧
           seriesBetween (df.getCol "Customer_rating") 1 5 = .ok false) ∨
         (m = "Invalid reached on time values" ∧
           seriesBetween (df.getCol "Customer_rating") 1 5 = .ok true ∧
           (df.getCol "Reached.on.Time_Y.N").all isinZeroOne = false)) ∧
        (main_run env df s).2 = .error m ∧
        (main_run env df s).1.shipments = s.shipments := by
    intro hbf
    subst hbf
    have hval : validate_data df = .error "Invalid customer ratings" := by
      simp [validate_data, hb]
      exact hcolsP
    have hmain := main_run_transform_error env df s _
      (transform_error_of_validate hval)
    exact ⟨_, hval, Or.inl ⟨rfl, hb⟩, hmain.1, hmain.2⟩
  rcases hbad with ⟨n, hnmem, hnout⟩ | ⟨v, hvmem, hv0, hv1⟩
  · exact finishRatings (seriesBetween_false_of_out_of_range hnout hnmem hb)
  · match b, hb with
    | false, hb => exact finishRatings rfl
    | true, hb =>
      have hflagsf : (df.getCol "Reached.on.Time_Y.N").all isinZeroOne = false := by
        rw [Bool.eq_false_iff]
        intro hall
        have hmem := List.all_eq_true.mp hall v hvmem
        simp [isinZeroOne] at hmem
        rcases hmem with h | h
        · exact hv0 h
        · exact hv1 h
      have hval : validate_data df = .error "Invalid reached on time values" := by
        simp [validate_data, hb, hflagsf]
        exact hcolsP
      have hmain := main_run_transform_error env df s _
        (transform_error_of_validate hval)
      exact ⟨_, hval, Or.inr ⟨rfl, hb, hflagsf⟩, hmain.1, hmain.2⟩

/-- A 12-column batch with customer rating 7 (outside `[1, 5]`). -/
def dfBadRating : DataFrame :=
  { cols := requiredColumns
    rows := [[Value.int 1, Value.str "A", Value.str "Flight", Value.int 4,
              Value.int 7, Value.int 177, Value.int 3, Value.str "low",
              Value.str "F", Value.int 44, Value.int 1233, Value.int 1]] }

/-- Witness for C3 at a concrete batch whose single rating is 7. -/
theorem C3_witness :
    ∃ m, validate_data dfBadRating = .error m ∧
      ((m = "Invalid customer ratings" ∧
         seriesBetween (dfBadRating.getCol "Customer_rating") 1 5 = .ok false) ∨
       (m = "Invalid reached on time values" ∧
         seriesBetween (dfBadRating.getCol "Customer_rating") 1 5 = .ok true ∧
         (dfBadRating.getCol "Reached.on.Time_Y.N").all isinZeroOne = false)) ∧
      (main_run (fun _ => none) dfBadRating ⟨freshDB, []⟩).2 = .error m ∧
      (main_run (fun _ => none) dfBadRating ⟨freshDB, []⟩).1.shipments = [] := by
  have hcol : dfBadRating.getCol "Customer_rating" = [Value.int 7] := rfl
  refine C3_range_validation (fun _ => none) dfBadRating ⟨freshDB, []⟩
    (by decide) ?_ (Or.inl ⟨7, ?_, Or.inr ?_⟩)
  · intro v hv
    rw [hcol] at hv
    exact Or.inl ⟨7, List.mem_singleton.mp hv⟩
  · rw [hcol]
    exact List.mem_singleton.mpr rfl
  · norm_num

/-! ## C1: coercion and zero-fill in the transform stage -/

theorem zipWith_fuse (f g : String → Value → Value) :
    ∀ (cs : List String) (r : List Value),
      List.zipWith f cs (List.zipWith g cs r) =
        List.zipWith (fun c v => f c (g c v)) cs r := by
  intro cs
  induction cs with
  | nil => intro r; rfl
  | cons c cs ih =>
    intro r
    cases r with
    | nil => rfl
    | cons v vs =>
      simp only [List.zipWith_cons_cons]
      rw [ih]

theorem zipWith_snd :
    ∀ (cs : List String) (r : List Value), r.length ≤ cs.length →
      List.zipWith (fun _ v => v) cs r = r := by
  intro cs
  induction cs with
  | nil =>
    intro r hr
    rw [List.length_eq_zero.mp (Nat.le_zero.mp hr)]
    rfl
  | cons c cs ih =>
    intro r hr
    cases r with
    | nil => rfl
    | cons v vs =>
      simp only [List.zipWith_cons_cons]
      rw [ih vs (by simpa using hr)]

theorem applyCol_foldl (f : Value → Value) :
    ∀ (l : List String), l.Nodup → ∀ (d : DataFrame),
      (∀ r ∈ d.rows, r.length ≤ d.cols.length) →
      l.foldl (fun d c => applyCol f c d) d =
        { cols := d.cols
          rows := d.rows.map (fun r =>
            List.zipWith (fun c v => if l.contains c then f v else v) d.cols r) } := by
  intro l
  induction l with
  | nil =>
    intro _ d hw
    rcases d with ⟨cols, rows⟩
    simp only [List.foldl_nil, DataFrame.mk.injEq, true_and]
    have : rows.map (fun r =>
        List.zipWith (fun (c : String) (v : Value) =>
          if ([] : List String).contains c then f v else v) cols r) =
        rows.map (fun r => r) := by
      refine List.map_congr_left ?_
      intro r hr
      exact zipWith_snd cols r (hw r hr)
    rw [this, List.map_id' rows]
  | cons c0 l ih =>
    intro hnd d hw
    obtain ⟨hc0, hnd'⟩ := List.nodup_cons.mp hnd
    rw [List.foldl_cons]
    have hw' : ∀ r ∈ (applyCol f c0 d).rows, r.length ≤ (applyCol f c0 d).cols.length := by
      intro r hr
      obtain ⟨r0, _, rfl⟩ := List.mem_map.mp hr
      calc (List.zipWith _ d.cols r0).length
          ≤ d.cols.length := by
            rw [List.length_zipWith]
            exact Nat.min_le_left _ _
        _ = (applyCol f c0 d).cols.length := rfl
    rw [ih hnd' (applyCol f c0 d) hw']
    unfold applyCol
    simp only [DataFrame.mk.injEq, true_and, List.map_map]
    refine List.map_congr_left ?_
    intro r _
    show List.zipWith _ d.cols (List.zipWith _ d.cols r) = _
    rw [zipWith_fuse]
    have hfun : (fun (c : String) (v : Value) =>
        if l.contains c then f (if c == c0 then f v else v)
        else if c == c0 then f v else v) =
        (fun (c : String) (v : Value) =>
          if (c0 :: l).contains c then f v else v) := by
      funext c v
      by_cases hcc : c = c0
      · subst hcc
        have hlc : l.contains c = false := by simp [hc0]
        simp [hlc, hc0]
      · have hne : (c == c0) = false := by simp [hcc]
        simp only [hne, Bool.false_eq_true, if_false, List.contains_cons, hne,
          Bool.false_or]
    rw [hfun]

/-- One cell of the transform stage, under the cell's target column name:
coerce if the column is one of the seven numeric ones, then zero-fill if
it is one of the three `fillna` ones. -/
def transStep (c : String) (v : Value) : Value :=
  let v1 := if numeric_columns.contains c then to_numeric v else v
  if fill_zero_columns.contains c then fillZero v1 else v1

/-- On a validated, well-formed batch the transform stage equals a single
cell-wise pass of `transStep` under the renamed headers. -/
theorem transform_data_cellwise (df : DataFrame)
    (hv : validate_data df = .ok true)
    (hw : ∀ r ∈ df.rows, r.length = df.cols.length) :
    transform_data df = .ok
      { cols := df.cols.map renameCol
        rows := df.rows.map (fun r =>
          List.zipWith transStep (df.cols.map renameCol) r) } := by
  have hw1 : ∀ r ∈ df.rows, r.length ≤ (df.cols.map renameCol).length := by
    intro r hr
    rw [List.length_map]
    exact Nat.le_of_eq (hw r hr)
  simp only [transform_data, hv]
  rw [applyCol_foldl to_numeric numeric_columns (by decide)
    { df with cols := df.cols.map renameCol } hw1]
  rw [applyCol_foldl fillZero fill_zero_columns (by decide) _ ?hw2]
  case hw2 =>
    intro r hr
    obtain ⟨r0, _, rfl⟩ := List.mem_map.mp hr
    rw [List.length_zipWith]
    exact Nat.min_le_left _ _
  simp only [Except.ok.injEq, DataFrame.mk.injEq, true_and, List.map_map]
  refine List.map_congr_left ?_
  intro r _
  show List.zipWith _ _ (List.zipWith _ _ r) = _
  rw [zipWith_fuse]
  rfl

theorem getColRow_zipWith (f : String → Value → Value) :
    ∀ (cs : List String) (r : List Value) (c : String),
      getColRow cs c (List.zipWith f cs r) =
        (getColRow cs c r).map (fun v => f c v) := by
  intro cs
  induction cs with
  | nil => intro r c; cases r <;> rfl
  | cons c2 cs ih =>
    intro r c
    cases r with
    | nil => rfl
    | cons v vs =>
      by_cases h : (c2 == c) = true
      · simp only [List.zipWith_cons_cons, getColRow, h, if_true, Option.map_some']
        rw [eq_of_beq h]
      · simp only [List.zipWith_cons_cons, getColRow, h, Bool.false_eq_true, if_false]
        exact ih vs c

theorem getColRow_isSome (c : String) :
    ∀ (cs : List String) (r : List Value), c ∈ cs → r.length = cs.length →
      (getColRow cs c r).isSome = true := by
  intro cs
  induction cs with
  | nil => intro r hc _; cases hc
  | cons c2 cs ih =>
    intro r hc hl
    cases r with
    | nil => cases hl
    | cons v vs =>
      by_cases h : (c2 == c) = true
      · simp [getColRow, h]
      · have : c ∈ cs := by
          rcases List.mem_cons.mp hc with rfl | hm
          · exact absurd (by simp) h
          · exact hm
        simp only [getColRow, h, Bool.false_eq_true, if_false]
        exact ih vs this (by simpa using hl)

theorem getD_map_lt (l : List (List Value)) (F : List Value → Value) (j : Nat)
    (hj : j < l.length) :
    (l.map F).getD j Value.na = F l[j] := by
  rw [List.getD_eq_getElem?_getD, List.getElem?_map, List.getElem?_eq_getElem hj]
  rfl

theorem getD_map_ge (l : List (List Value)) (F : List Value → Value) (j : Nat)
    (hj : l.length ≤ j) :
    (l.map F).getD j Value.na = Value.na := by
  rw [List.getD_eq_getElem?_getD, List.getElem?_map,
    List.getElem?_eq_none (by simpa using hj)]
  rfl

/-- **C1.** For every input batch passing validation (with well-formed
rows), the transform stage never raises and returns a batch in which the
seven designated numeric columns are coerced cell-wise — any value that
cannot parse as numeric becomes the null marker — and then, after
coercion, null markers in `customer_care_calls`, `prior_purchases` and
`discount_offered` are replaced by `0`, while the remaining numeric
columns keep the coerced value unchanged (null markers there, including
in `customer_rating`, `cost_of_the_product` and `weight_in_gms`, remain
null) and every non-numeric column is returned untouched. -/
theorem C1_transform_coercion_and_fill (df : DataFrame)
    (hv : validate_data df = .ok true)
    (hw : ∀ r ∈ df.rows, r.length = df.cols.length) :
    ∃ t, transform_data df = .ok t ∧
      t.cols = df.cols.map renameCol ∧
      t.rows.length = df.rows.length ∧
      (∀ c ∈ numeric_columns, c ∉ fill_zero_columns →
        ∀ j, colValAt t c j = to_numeric (colValAt (renamedView df) c j)) ∧
      (∀ c ∈ fill_zero_columns, ∀ j, j < df.rows.length →
        colValAt t c j = fillZero (to_numeric (colValAt (renamedView df) c j))) ∧
      (∀ c, c ∉ numeric_columns → t.getCol c = (renamedView df).getCol c) := by
  have hcell := transform_data_cellwise df hv hw
  refine ⟨_, hcell, rfl, by simp, ?_, ?_, ?_⟩
  · -- numeric columns outside the fill list: pure coercion
    intro c hcn hcf j
    have hstep : ∀ v, transStep c v = to_numeric v := by
      intro v
      simp [transStep, hcn, hcf]
    by_cases hj : j < df.rows.length
    · simp only [colValAt, DataFrame.getCol, renamedView, List.map_map]
      rw [getD_map_lt _ _ j hj, getD_map_lt _ _ j hj]
      simp only [Function.comp_apply]
      rw [getColRow_zipWith]
      cases h : getColRow (df.cols.map renameCol) c df.rows[j]
      · rfl
      · simp [hstep]
    · simp only [colValAt, DataFrame.getCol, renamedView, List.map_map]
      rw [getD_map_ge _ _ j (Nat.le_of_not_lt hj),
        getD_map_ge _ _ j (Nat.le_of_not_lt hj)]
      rfl
  · -- the three fill columns: coercion then zero-fill
    intro c hcf j hj
    have hcn : c ∈ numeric_columns := by
      fin_cases hcf <;> decide
    have hstep : ∀ v, transStep c v = fillZero (to_numeric v) := by
      intro v
      simp [transStep, hcn, hcf]
    have hc2 : c ∈ df.cols.map renameCol := by
      fin_cases hcf
      · exact List.mem_map.mpr ⟨"Customer_care_calls",
          by simpa using validate_ok_columns hv "Customer_care_calls" (by decide), rfl⟩
      · exact List.mem_map.mpr ⟨"Prior_purchases",
          by simpa using validate_ok_columns hv "Prior_purchases" (by decide), rfl⟩
      · exact List.mem_map.mpr ⟨"Discount_offered",
          by simpa using validate_ok_columns hv "Discount_offered" (by decide), rfl⟩
    simp only [colValAt, DataFrame.getCol, renamedView, List.map_map]
    rw [getD_map_lt _ _ j hj, getD_map_lt _ _ j hj]
    simp only [Function.comp_apply]
    rw [getColRow_zipWith]
    have hr : df.rows[j] ∈ df.rows := List.getElem_mem hj
    have hlen : (df.rows[j] : List Value).length = (df.cols.map renameCol).length := by
      rw [List.length_map]
      exact hw _ hr
    obtain ⟨v, hsome⟩ := Option.isSome_iff_exists.mp
      (getColRow_isSome c (df.cols.map renameCol) df.rows[j] hc2 hlen)
    rw [hsome]
    simp [hstep]
  · -- every other column is untouched
    intro c hcn
    have hcf : c ∉ fill_zero_columns := by
      intro hc
      exact hcn (by fin_cases hc <;> decide)
    have hstep : ∀ v, transStep c v = v := by
      intro v
      simp [transStep, hcn, hcf]
    simp only [DataFrame.getCol, renamedView, List.map_map]
    refine List.map_congr_left ?_
    intro r _
    simp only [Function.comp_apply]
    rw [getColRow_zipWith]
    cases h : getColRow (df.cols.map renameCol) c r
    · rfl
    · simp [hstep]

/-- A valid 12-column one-row batch with an unparseable care-calls value,
an unparseable product cost and missing prior purchases and weight. -/
def dfValid : DataFrame :=
  { cols := requiredColumns
    rows := [[Value.int 1, Value.str "A", Value.str "Flight", Value.str "x",
              Value.int 3, Value.str "y", Value.na, Value.str "low",
              Value.str "F", Value.int 44, Value.na, Value.int 1]] }

/-- Witness for C1 at a concrete batch exercising failed coercion in a
fill column (`x` becomes 0), failed coercion in a non-fill column (`y`
stays null) and a null that stays null (`weight_in_gms`). -/
theorem C1_witness :
    validate_data dfValid = .ok true ∧
    (∀ r ∈ dfValid.rows, r.length = dfValid.cols.length) ∧
    (∃ t, transform_data dfValid = .ok t ∧
      t.cols = dfValid.cols.map renameCol ∧
      t.rows.length = dfValid.rows.length ∧
      (∀ c ∈ numeric_columns, c ∉ fill_zero_columns →
        ∀ j, colValAt t c j = to_numeric (colValAt (renamedView dfValid) c j)) ∧
      (∀ c ∈ fill_zero_columns, ∀ j, j < dfValid.rows.length →
        colValAt t c j = fillZero (to_numeric (colValAt (renamedView dfValid) c j))) ∧
      (∀ c, c ∉ numeric_columns → t.getCol c = (renamedView dfValid).getCol c)) :=
  ⟨rfl, by decide, C1_transform_coercion_and_fill dfValid rfl (by decide)⟩

/-! ## C2: the load stage is an upsert keyed on `id`

Lemmas about field lookup in stored rows, the single-row upsert, and the
batched upsert fold. -/

theorem lookup_eq_none_of_not_any {c : String} :
    ∀ {r : StoredRow}, r.any (fun p => p.1 == c) = false →
      r.lookup c = none := by
  intro r
  induction r with
  | nil => intro _; rfl
  | cons p ps ih =>
    intro h
    rw [List.any_cons] at h
    obtain ⟨h1, h2⟩ := Bool.or_eq_false_iff.mp h
    rcases p with ⟨k, v⟩
    rw [List.lookup_cons]
    have : (c == k) = false := by
      simp only at h1
      exact beq_eq_false_iff_ne.mpr (Ne.symm (beq_eq_false_iff_ne.mp h1))
    rw [this]
    exact ih h2

theorem lookup_append_point (c : String) (r2 : StoredRow) :
    ∀ (r1 : StoredRow),
      (r1 ++ r2).lookup c =
        match r1.lookup c with
        | some v => some v
        | none => r2.lookup c := by
  intro r1
  induction r1 with
  | nil => rfl
  | cons p ps ih =>
    rcases p with ⟨k, v⟩
    rw [List.cons_append, List.lookup_cons, List.lookup_cons]
    by_cases h : (c == k) = true
    · rw [h]
    · rw [Bool.not_eq_true] at h
      rw [h]
      exact ih

theorem lookup_map_set_self {c : String} {v : Value} :
    ∀ {r : StoredRow}, r.any (fun p => p.1 == c) = true →
      (r.map (fun p => if p.1 == c then (p.1, v) else p)).lookup c = some v := by
  intro r
  induction r with
  | nil => intro h; cases h
  | cons p ps ih =>
    intro h
    rcases p with ⟨k, w⟩
    by_cases hk : (k == c) = true
    · simp only [List.map_cons, hk, if_true]
      rw [List.lookup_cons]
      have : (c == k) = true := by simp [eq_of_beq hk]
      rw [this]
    · rw [List.any_cons] at h
      simp only at h
      rw [Bool.not_eq_true] at hk
      rw [hk, Bool.false_or] at h
      simp only [List.map_cons, hk, Bool.false_eq_true, if_false]
      rw [List.lookup_cons]
      have : (c == k) = false := by
        refine beq_eq_false_iff_ne.mpr ?_
        intro hck
        rw [hck, beq_self_eq_true] at hk
        cases hk
      rw [this]
      exact ih h

theorem lookup_map_set_ne {c c2 : String} {v : Value} (hne : c2 ≠ c) :
    ∀ (r : StoredRow),
      (r.map (fun p => if p.1 == c then (p.1, v) else p)).lookup c2 =
        r.lookup c2 := by
  intro r
  induction r with
  | nil => rfl
  | cons p ps ih =>
    rcases p with ⟨k, w⟩
    by_cases hk : (k == c) = true
    · simp only [List.map_cons, hk, if_true]
      rw [List.lookup_cons, List.lookup_cons]
      have : (c2 == k) = false := by
        refine beq_eq_false_iff_ne.mpr ?_
        intro h2
        exact hne (h2.trans (eq_of_beq hk))
      rw [this]
      exact ih
    · rw [Bool.not_eq_true] at hk
      simp only [List.map_cons, hk, Bool.false_eq_true, if_false]
      rw [List.lookup_cons, List.lookup_cons]
      by_cases h2 : (c2 == k) = true
      · rw [h2]
      · rw [Bool.not_eq_true] at h2
        rw [h2]
        exact ih

theorem lookup_setField_self (r : StoredRow) (c : String) (v : Value) :
    (setField r c v).lookup c = some v := by
  unfold setField
  by_cases hany : r.any (fun p => p.1 == c) = true
  · rw [if_pos hany]
    exact lookup_map_set_self hany
  · rw [Bool.not_eq_true] at hany
    rw [if_neg (by rw [hany]; exact Bool.false_ne_true)]
    rw [lookup_append_point, lookup_eq_none_of_not_any hany,
      List.lookup_cons, beq_self_eq_true]

theorem lookup_setField_ne (r : StoredRow) {c c2 : String} (v : Value)
    (hne : c2 ≠ c) :
    (setField r c v).lookup c2 = r.lookup c2 := by
  unfold setField
  by_cases hany : r.any (fun p => p.1 == c) = true
  · rw [if_pos hany]
    exact lookup_map_set_ne hne r
  · rw [Bool.not_eq_true] at hany
    rw [if_neg (by rw [hany]; exact Bool.false_ne_true)]
    rw [lookup_append_point]
    cases h : r.lookup c2
    · rw [List.lookup_cons]
      rw [beq_eq_false_iff_ne.mpr hne]
      rfl
    · rfl

theorem foldl_set_lookup_preserve (incoming : StoredRow) (c2 : String) :
    ∀ (L : List String), (∀ c ∈ L, c ≠ c2) → ∀ (r : StoredRow),
      ((L.foldl (fun r c =>
          match incoming.lookup c with
          | some v => setField r c v
          | none => r) r).lookup c2) = r.lookup c2 := by
  intro L
  induction L with
  | nil => intro _ r; rfl
  | cons c0 L ih =>
    intro hL r
    rw [List.foldl_cons]
    rw [ih (fun c hc => hL c (List.mem_cons_of_mem c0 hc))]
    cases h : incoming.lookup c0
    · rfl
    · exact lookup_setField_ne r _ (Ne.symm (hL c0 (List.mem_cons_self c0 L)))

theorem foldl_set_lookup_stable (incoming : StoredRow) (c : String) (v : Value)
    (hv : incoming.lookup c = some v) :
    ∀ (L : List String) (r : StoredRow), r.lookup c = some v →
      ((L.foldl (fun r c =>
          match incoming.lookup c with
          | some v => setField r c v
          | none => r) r).lookup c) = some v := by
  intro L
  induction L with
  | nil => intro r hr; exact hr
  | cons c0 L ih =>
    intro r hr
    rw [List.foldl_cons]
    refine ih _ ?_
    by_cases hc : c0 = c
    · subst hc
      rw [hv]
      exact lookup_setField_self r c0 v
    · cases h : incoming.lookup c0
      · exact hr
      · rw [lookup_setField_ne r _ (Ne.symm hc)]
        exact hr

theorem foldl_set_lookup_mem (incoming : StoredRow) (c : String) (v : Value)
    (hv : incoming.lookup c = some v) :
    ∀ (L : List String) (r : StoredRow), c ∈ L →
      ((L.foldl (fun r c =>
          match incoming.lookup c with
          | some v => setField r c v
          | none => r) r).lookup c) = some v := by
  intro L
  induction L with
  | nil => intro r hc; cases hc
  | cons c0 L ih =>
    intro r hc
    rw [List.foldl_cons]
    rcases List.mem_cons.mp hc with rfl | hc2
    · refine foldl_set_lookup_stable incoming c v hv L _ ?_
      rw [hv]
      exact lookup_setField_self r c v
    · exact ih _ hc2

theorem updateOnConflict_lookup_id (cols : List String) (incoming r : StoredRow) :
    (updateOnConflict cols incoming r).lookup "id" = r.lookup "id" := by
  unfold updateOnConflict
  refine foldl_set_lookup_preserve incoming "id" _ ?_ r
  intro c hc
  have := (List.mem_filter.mp hc).2
  intro hcid
  rw [hcid] at this
  simp at this

theorem updateOnConflict_lookup_set (cols : List String) (incoming r : StoredRow)
    (c : String) (hc : c ∈ cols) (hcne : c ≠ "id") (v : Value)
    (hv : incoming.lookup c = some v) :
    (updateOnConflict cols incoming r).lookup c = some v := by
  unfold updateOnConflict
  refine foldl_set_lookup_mem incoming c v hv _ r ?_
  refine List.mem_filter.mpr ⟨hc, ?_⟩
  simp [hcne]

theorem zip_lookup_mem :
    ∀ (cols : List String) (vals : List Value) (c : String), c ∈ cols →
      vals.length = cols.length →
      ∃ v, (cols.zip vals).lookup c = some v := by
  intro cols
  induction cols with
  | nil => intro vals c hc _; cases hc
  | cons c0 cols ih =>
    intro vals c hc hl
    cases vals with
    | nil => cases hl
    | cons v0 vals =>
      by_cases h : c = c0
      · subst h
        exact ⟨v0, by rw [List.zip_cons_cons, List.lookup_cons, beq_self_eq_true]⟩
      · have hc2 : c ∈ cols := by
          rcases List.mem_cons.mp hc with rfl | hm
          · exact absurd rfl h
          · exact hm
        obtain ⟨v, hv⟩ := ih vals c hc2 (by simpa using hl)
        refine ⟨v, ?_⟩
        rw [List.zip_cons_cons, List.lookup_cons, beq_eq_false_iff_ne.mpr h]
        exact hv

/-- The incoming batch row for `vals` is fully reflected in `t`: every
stored row carrying its `id` agrees with it on every statement column. -/
def rowReflects (cols : List String) (vals : List Value) (t : Table) : Prop :=
  ∀ r ∈ t, r.lookup "id" = (cols.zip vals).lookup "id" →
    ∀ c ∈ cols, r.lookup c = (cols.zip vals).lookup c

theorem upsertRow_exists_self (cols : List String) (t : Table) (vals : List Value) :
    ∃ r ∈ upsertRow cols t vals,
      r.lookup "id" = (cols.zip vals).lookup "id" := by
  simp only [upsertRow]
  by_cases hany : (t.any (fun r =>
      r.lookup "id" == (cols.zip vals).lookup "id")) = true
  · rw [if_pos hany]
    obtain ⟨r, hrt, hrb⟩ := List.any_eq_true.mp hany
    refine ⟨_, List.mem_map_of_mem _ hrt, ?_⟩
    rw [if_pos hrb, updateOnConflict_lookup_id]
    exact eq_of_beq hrb
  · rw [if_neg hany]
    exact ⟨cols.zip vals,
      List.mem_append.mpr (Or.inr (List.mem_singleton.mpr rfl)), rfl⟩

theorem upsertRow_reflects_self (cols : List String) (t : Table)
    (vals : List Value) (hl : vals.length = cols.length) :
    rowReflects cols vals (upsertRow cols t vals) := by
  intro r' hr' hrid c hc
  simp only [upsertRow] at hr'
  by_cases hany : (t.any (fun r =>
      r.lookup "id" == (cols.zip vals).lookup "id")) = true
  · rw [if_pos hany] at hr'
    obtain ⟨r, hrt, rfl⟩ := List.mem_map.mp hr'
    by_cases hb : (r.lookup "id" == (cols.zip vals).lookup "id") = true
    · rw [if_pos hb]
      by_cases hcid : c = "id"
      · subst hcid
        rw [updateOnConflict_lookup_id]
        exact eq_of_beq hb
      · obtain ⟨v, hv⟩ := zip_lookup_mem cols vals c hc hl
        rw [hv]
        exact updateOnConflict_lookup_set cols _ r c hc hcid v hv
    · rw [if_neg hb] at hrid ⊢
      exact absurd hrid (beq_eq_false_iff_ne.mp (Bool.not_eq_true _ ▸ eq_false_of_ne_true hb))
  · rw [if_neg hany] at hr'
    rcases List.mem_append.mp hr' with hrt | hrl
    · have hne : (r'.lookup "id" == (cols.zip vals).lookup "id") = false := by
        rw [← Bool.not_eq_true]
        intro hb
        exact hany (List.any_eq_true.mpr ⟨r', hrt, hb⟩)
      exact absurd hrid (beq_eq_false_iff_ne.mp hne)
    · rw [List.mem_singleton.mp hrl]

theorem upsertRow_preserve (cols cols2 : List String) (t : Table)
    (vals vals2 : List Value)
    (hne : (cols2.zip vals2).lookup "id" ≠ (cols.zip vals).lookup "id")
    (h : rowReflects cols vals t) :
    rowReflects cols vals (upsertRow cols2 t vals2) := by
  intro r' hr' hrid c hc
  simp only [upsertRow] at hr'
  by_cases hany : (t.any (fun r =>
      r.lookup "id" == (cols2.zip vals2).lookup "id")) = true
  · rw [if_pos hany] at hr'
    obtain ⟨r, hrt, rfl⟩ := List.mem_map.mp hr'
    by_cases hb : (r.lookup "id" == (cols2.zip vals2).lookup "id") = true
    · rw [if_pos hb] at hrid ⊢
      rw [updateOnConflict_lookup_id] at hrid
      exact absurd ((eq_of_beq hb).symm.trans hrid) hne
    · rw [if_neg hb] at hrid ⊢
      exact h r hrt hrid c hc
  · rw [if_neg hany] at hr'
    rcases List.mem_append.mp hr' with hrt | hrl
    · exact h r' hrt hrid c hc
    · rw [List.mem_singleton.mp hrl] at hrid
      exact absurd hrid hne

theorem upsertRow_exists_preserve (cols2 : List String) (t : Table)
    (vals2 : List Value) (k : Option Value)
    (h : ∃ r ∈ t, r.lookup "id" = k) :
    ∃ r ∈ upsertRow cols2 t vals2, r.lookup "id" = k := by
  obtain ⟨r, hrt, hrk⟩ := h
  simp only [upsertRow]
  by_cases hany : (t.any (fun r =>
      r.lookup "id" == (cols2.zip vals2).lookup "id")) = true
  · rw [if_pos hany]
    refine ⟨_, List.mem_map_of_mem _ hrt, ?_⟩
    by_cases hb : (r.lookup "id" == (cols2.zip vals2).lookup "id") = true
    · rw [if_pos hb, updateOnConflict_lookup_id]
      exact hrk
    · rw [if_neg hb]
      exact hrk
  · rw [if_neg hany]
    exact ⟨r, List.mem_append.mpr (Or.inl hrt), hrk⟩

theorem upsertRow_length_of_exists (cols : List String) (t : Table)
    (vals : List Value)
    (h : ∃ r ∈ t, r.lookup "id" = (cols.zip vals).lookup "id") :
    (upsertRow cols t vals).length = t.length := by
  obtain ⟨r, hrt, hrk⟩ := h
  have hany : (t.any (fun r =>
      r.lookup "id" == (cols.zip vals).lookup "id")) = true :=
    List.any_eq_true.mpr ⟨r, hrt, by rw [hrk]; exact beq_self_eq_true _⟩
  simp only [upsertRow]
  rw [if_pos hany]
  exact List.length_map _ _

theorem foldl_upsert_preserve (cols : List String) (vals : List Value) :
    ∀ (rows : List (List Value)) (t : Table),
      (∀ r2 ∈ rows, (cols.zip r2).lookup "id" ≠ (cols.zip vals).lookup "id") →
      rowReflects cols vals t →
      rowReflects cols vals (rows.foldl (fun t r => upsertRow cols t r) t) := by
  intro rows
  induction rows with
  | nil => intro t _ h; exact h
  | cons rhead rtail ih =>
    intro t hne h
    rw [List.foldl_cons]
    exact ih _ (fun r2 hr2 => hne r2 (List.mem_cons_of_mem _ hr2))
      (upsertRow_preserve cols cols t vals rhead
        (hne rhead (List.mem_cons_self _ _)) h)

theorem foldl_upsert_exists (cols : List String) (k : Option Value) :
    ∀ (rows : List (List Value)) (t : Table),
      (∃ r ∈ t, r.lookup "id" = k) →
      ∃ r ∈ rows.foldl (fun t r => upsertRow cols t r) t,
        r.lookup "id" = k := by
  intro rows
  induction rows with
  | nil => intro t h; exact h
  | cons rhead rtail ih =>
    intro t h
    rw [List.foldl_cons]
    exact ih _ (upsertRow_exists_preserve cols t rhead k h)

theorem applyBatchL_exists_all (cols : List String) :
    ∀ (rows : List (List Value)) (t : Table) (r0 : List Value), r0 ∈ rows →
      ∃ rr ∈ rows.foldl (fun t r => upsertRow cols t r) t,
        rr.lookup "id" = (cols.zip r0).lookup "id" := by
  intro rows
  induction rows with
  | nil => intro t r0 h; cases h
  | cons rhead rtail ih =>
    intro t r0 hr0
    rw [List.foldl_cons]
    rcases List.mem_cons.mp hr0 with rfl | hr0t
    · exact foldl_upsert_exists cols _ rtail _
        (upsertRow_exists_self cols t r0)
    · exact ih _ r0 hr0t

theorem applyBatchL_length (cols : List String) :
    ∀ (rows : List (List Value)) (t : Table),
      (∀ r ∈ rows, ∃ rr ∈ t, rr.lookup "id" = (cols.zip r).lookup "id") →
      (rows.foldl (fun t r => upsertRow cols t r) t).length = t.length := by
  intro rows
  induction rows with
  | nil => intro t _; rfl
  | cons rhead rtail ih =>
    intro t h
    rw [List.foldl_cons]
    rw [ih _ (fun r hr => upsertRow_exists_preserve cols t rhead _
      (h r (List.mem_cons_of_mem _ hr)))]
    exact upsertRow_length_of_exists cols t rhead (h rhead (List.mem_cons_self _ _))

theorem applyBatchL_reflects (cols : List String) :
    ∀ (rows : List (List Value)) (t : Table),
      (∀ r ∈ rows, r.length = cols.length) →
      (rows.map (fun r => (cols.zip r).lookup "id")).Nodup →
      ∀ r0 ∈ rows,
        rowReflects cols r0 (rows.foldl (fun t r => upsertRow cols t r) t) := by
  intro rows
  induction rows with
  | nil => intro t _ _ r0 h; cases h
  | cons rhead rtail ih =>
    intro t hw hndids r0 hr0
    rw [List.map_cons, List.nodup_cons] at hndids
    rw [List.foldl_cons]
    rcases List.mem_cons.mp hr0 with rfl | hr0t
    · have hneq : ∀ r2 ∈ rtail,
          (cols.zip r2).lookup "id" ≠ (cols.zip r0).lookup "id" := by
        intro r2 hr2 heq
        exact hndids.1 (heq ▸ List.mem_map_of_mem _ hr2)
      exact foldl_upsert_preserve cols r0 rtail _ hneq
        (upsertRow_reflects_self cols t r0 (hw r0 (List.mem_cons_self _ _)))
    · exact ih _ (fun r hr => hw r (List.mem_cons_of_mem _ hr)) hndids.2 r0 hr0t

/-- **C2.** The load operation performs an upsert keyed on `id`: loading a
batch and then re-loading a batch with the same columns and the same
identifiers in the same order (with any non-key values changed) leaves
the store reflecting only the latest values — every stored row carrying a
batch identifier agrees with the re-loaded row on every statement column,
its `id` is never rewritten — and the row count is unchanged. -/
theorem C2_upsert_roundtrip (df df2 : DataFrame) (t : Table)
    (hc : df2.cols = df.cols)
    (hw2 : ∀ r ∈ df2.rows, r.length = df.cols.length)
    (hids : df2.rows.map (fun r => rowId df.cols r) =
            df.rows.map (fun r => rowId df.cols r))
    (hndids : (df.rows.map (fun r => rowId df.cols r)).Nodup) :
    (applyBatch df2 (applyBatch df t)).length = (applyBatch df t).length ∧
    ∀ r0 ∈ df2.rows,
      (∃ rr ∈ applyBatch df2 (applyBatch df t),
        rr.lookup "id" = rowId df.cols r0) ∧
      (∀ rr ∈ applyBatch df2 (applyBatch df t),
        rr.lookup "id" = rowId df.cols r0 →
        ∀ c ∈ df.cols, rr.lookup c = (df.cols.zip r0).lookup c) := by
  simp only [applyBatch, rowId] at *
  rw [hc]
  constructor
  · refine applyBatchL_length df.cols df2.rows _ ?_
    intro r hr
    obtain ⟨r', hr't, hideq⟩ := List.mem_map.mp (hids ▸ List.mem_map_of_mem
      (fun r => (df.cols.zip r).lookup "id") hr)
    have := applyBatchL_exists_all df.cols df.rows t r' hr't
    rw [hideq] at this
    exact this
  · intro r0 hr0
    constructor
    · refine applyBatchL_exists_all df.cols df2.rows _ r0 hr0
    · exact applyBatchL_reflects df.cols df2.rows _ hw2
        (by rw [hids]; exact hndids) r0 hr0

/-- First batch: two shipments with ids 1 and 2. -/
def dfLoadA : DataFrame :=
  { cols := ["id", "discount_offered"]
    rows := [[Value.int 1, Value.int 10], [Value.int 2, Value.int 20]] }

/-- Second batch: same ids, id 1 gets a changed discount. -/
def dfLoadB : DataFrame :=
  { cols := ["id", "discount_offered"]
    rows := [[Value.int 1, Value.int 99], [Value.int 2, Value.int 20]] }

/-- Witness for C2 at a concrete pair of two-row batches. -/
theorem C2_witness :
    (applyBatch dfLoadB (applyBatch dfLoadA [])).length =
      (applyBatch dfLoadA []).length ∧
    ∀ r0 ∈ dfLoadB.rows,
      (∃ rr ∈ applyBatch dfLoadB (applyBatch dfLoadA []),
        rr.lookup "id" = rowId dfLoadA.cols r0) ∧
      (∀ rr ∈ applyBatch dfLoadB (applyBatch dfLoadA []),
        rr.lookup "id" = rowId dfLoadA.cols r0 →
        ∀ c ∈ dfLoadA.cols, rr.lookup c = (dfLoadA.cols.zip r0).lookup c) :=
  C2_upsert_roundtrip dfLoadA dfLoadB [] rfl (by decide) (by decide)
    (by decide)

/-! ## C7: neither validation nor transformation mutates its input -/

theorem alloc_snd (h : PyHeap) (d : DataFrame) : (h.alloc d).2 = h.next := rfl

theorem alloc_fst_next (h : PyHeap) (d : DataFrame) :
    (h.alloc d).1.next = h.next + 1 := rfl

theorem alloc_fst_cells_self (h : PyHeap) (d : DataFrame) :
    (h.alloc d).1.cells h.next = some d := by
  simp [PyHeap.alloc]

theorem alloc_fst_cells_eq (h : PyHeap) (d : DataFrame) (n : Nat)
    (he : n = h.next) :
    (h.alloc d).1.cells n = some d := by
  subst he
  exact alloc_fst_cells_self h d

theorem alloc_fst_cells_ne (h : PyHeap) (d : DataFrame) (n : Nat)
    (hne : n ≠ h.next) :
    (h.alloc d).1.cells n = h.cells n := by
  simp [PyHeap.alloc, hne]

theorem write_next (h : PyHeap) (r : Nat) (d : DataFrame) :
    (h.write r d).next = h.next := rfl

theorem write_cells_self (h : PyHeap) (r : Nat) (d : DataFrame) :
    (h.write r d).cells r = some d := by
  simp [PyHeap.write]

theorem write_cells_ne (h : PyHeap) (r : Nat) (d : DataFrame) (n : Nat)
    (hne : n ≠ r) :
    (h.write r d).cells n = h.cells n := by
  simp [PyHeap.write, hne]

theorem read_of_cells (h : PyHeap) (r : Nat) (d : DataFrame)
    (hc : h.cells r = some d) : h.read r = d := by
  simp [PyHeap.read, hc]

theorem foldl_write_applyCol_next (f : Value → Value) (r : Nat) :
    ∀ (l : List String) (hh : PyHeap),
      (l.foldl (fun hh c => hh.write r (applyCol f c (hh.read r))) hh).next =
        hh.next := by
  intro l
  induction l with
  | nil => intro hh; rfl
  | cons c l ih =>
    intro hh
    rw [List.foldl_cons, ih, write_next]

theorem foldl_write_applyCol_other (f : Value → Value) (r : Nat) :
    ∀ (l : List String) (hh : PyHeap) (n : Nat), n ≠ r →
      (l.foldl (fun hh c => hh.write r (applyCol f c (hh.read r))) hh).cells n =
        hh.cells n := by
  intro l
  induction l with
  | nil => intro hh n _; rfl
  | cons c l ih =>
    intro hh n hn
    rw [List.foldl_cons, ih _ n hn, write_cells_ne _ _ _ _ hn]

theorem foldl_write_applyCol_value (f : Value → Value) (r : Nat) :
    ∀ (l : List String) (hh : PyHeap) (d : DataFrame), hh.cells r = some d →
      (l.foldl (fun hh c => hh.write r (applyCol f c (hh.read r))) hh).cells r =
        some (l.foldl (fun d c => applyCol f c d) d) := by
  intro l
  induction l with
  | nil => intro hh d hc; exact hc
  | cons c l ih =>
    intro hh d hc
    rw [List.foldl_cons, List.foldl_cons]
    refine ih _ (applyCol f c d) ?_
    rw [read_of_cells hh r d hc]
    exact write_cells_self hh r (applyCol f c d)

/-- **C7.** Neither validation nor transformation mutates its input
object: `validate_data` leaves the heap unchanged and returns exactly the
pure validation result, and `transform_data` leaves the dataframe object
its argument names holding its original value, returning a freshly
allocated batch whose value is the pure transform result (renamed,
coerced, filled). -/
theorem C7_no_mutation (h : PyHeap) (dfRef : Nat) (d0 : DataFrame)
    (hc : h.cells dfRef = some d0) (hlt : dfRef < h.next) :
    (validate_data_run h dfRef).1 = h ∧
    (validate_data_run h dfRef).2 = validate_data d0 ∧
    (transform_data_run h dfRef).1.cells dfRef = some d0 ∧
    ∀ b, validate_data d0 = .ok b →
      ∃ fRef t, (transform_data_run h dfRef).2 = .ok fRef ∧ fRef ≠ dfRef ∧
        (transform_data_run h dfRef).1.cells fRef = some t ∧
        transform_data d0 = .ok t := by
  have hread : h.read dfRef = d0 := read_of_cells h dfRef d0 hc
  have hne_df_next : dfRef ≠ h.next := Nat.ne_of_lt hlt
  have hval1 : (h.alloc d0).1.cells h.next = some d0 := alloc_fst_cells_self h d0
  have hread1 : (h.alloc d0).1.read h.next = d0 := read_of_cells _ _ _ hval1
  refine ⟨rfl, by simp only [validate_data_run, hread], ?_, ?_⟩
  · simp only [transform_data_run, hread]
    cases hv : validate_data d0 with
    | error e => exact hc
    | ok b0 =>
      simp only [hread1]
      rw [alloc_fst_cells_ne _ _ _ ?hne1]
      case hne1 =>
        rw [foldl_write_applyCol_next, write_next, alloc_fst_next]
        omega
      rw [foldl_write_applyCol_other _ _ _ _ _ hne_df_next,
        write_cells_ne _ _ _ _ hne_df_next,
        alloc_fst_cells_ne _ _ _ hne_df_next]
      exact hc
  · intro b hb
    simp only [transform_data_run, hread, hb, hread1]
    have hcells2 : ((h.alloc d0).1.write h.next
        { d0 with cols := d0.cols.map renameCol }).cells h.next =
        some { d0 with cols := d0.cols.map renameCol } :=
      write_cells_self _ _ _
    have hcells3 := foldl_write_applyCol_value to_numeric h.next
      numeric_columns _ _ hcells2
    refine ⟨h.next + 1,
      fill_zero_columns.foldl (fun d c => applyCol fillZero c d)
        (numeric_columns.foldl (fun d c => applyCol to_numeric c d)
          { d0 with cols := d0.cols.map renameCol }), ?_, by omega, ?_, ?_⟩
    · simp only [alloc_snd, foldl_write_applyCol_next, write_next, alloc_fst_next]
    · rw [read_of_cells _ _ _ hcells3]
      refine alloc_fst_cells_eq _ _ _ ?_
      rw [foldl_write_applyCol_next, write_next, alloc_fst_next]
    · simp only [transform_data, hb]

/-- A one-object heap holding the C1 witness batch at address 0. -/
def heap0 : PyHeap :=
  { cells := fun n => if n = 0 then some dfValid else none, next := 1 }

/-- Witness for C7: on the concrete heap, transforming the batch at
address 0 leaves that object unchanged. -/
theorem C7_witness :
    heap0.cells 0 = some dfValid ∧ 0 < heap0.next ∧
    ((validate_data_run heap0 0).1 = heap0 ∧
     (validate_data_run heap0 0).2 = validate_data dfValid ∧
     (transform_data_run heap0 0).1.cells 0 = some dfValid ∧
     ∀ b, validate_data dfValid = .ok b →
       ∃ fRef t, (transform_data_run heap0 0).2 = .ok fRef ∧ fRef ≠ 0 ∧
         (transform_data_run heap0 0).1.cells fRef = some t ∧
         transform_data dfValid = .ok t) :=
  ⟨rfl, by decide, C7_no_mutation heap0 0 dfValid rfl (by decide)⟩

end Etl
